import Mathlib

/-!
Verification of the ORR (Open Source Voting Results Reporter) data-loading
core against its specification.

The development shallowly embeds the relevant parts of the Python source:

* `orr/dataloading.py`: value converters (`parse_int`, `parse_bool`,
  `parse_as_is`, `parse_id`), the declarative attribute loader
  (`AutoAttr.process_key`, `process_auto_attr`, `load_object`), the id
  registry builder (`add_object_by_id`, `create_mapping_by_id`) and the
  header/contest tree linking pass (`add_child_to_header`,
  `link_with_header`).
* `orr/tsvio.py`: `split_line`, `TSVStream` and `TSVReader.__enter__`.
* `orr/models/rcvresults.py`: `RCVResults.get_candidate_rounds`,
  `find_max_round`, `compute_max_rounds` and `compute_order_info`.

Python raw values flowing through the loader are modelled by `Value`
(null, string, int, bool); Python exceptions by `Except LoadError`;
Python dicts by association lists with explicit pop/set operations.
Error message payloads are elided: only the error category is modelled.
-/

namespace Orr

/-- Raw values appearing in decoded JSON/TSV records: Python `None`,
`str`, `int` and `bool`. -/
inductive Value where
  | vnull : Value
  | vstr : String → Value
  | vint : Int → Value
  | vbool : Bool → Value
deriving DecidableEq, Repr

/-- Error taxonomy of the loading pass.  In the source every failure is a
`RuntimeError` with a message; here each failure site is tagged with the
category the specification assigns to it. -/
inductive LoadError where
  | missingRequiredField : LoadError
  | invalidValueFormat : LoadError
  | duplicateId : LoadError
  | danglingReference : LoadError
  | unrecognizedField : LoadError
  | noDelimiterFound : LoadError
deriving DecidableEq, Repr

/-- Characters stripped by Python `str.rstrip()` / accepted around an
`int()` literal (the common whitespace characters). -/
def isPySpace (c : Char) : Bool :=
  c = ' ' || c = '\t' || c = '\n' || c = '\x0d'

/-- Decimal digit test. -/
def isDigitChar (c : Char) : Bool :=
  '0' ≤ c && c ≤ '9'

/-- Numeric value of a decimal digit character. -/
def digitVal (c : Char) : Nat :=
  c.toNat - '0'.toNat

/-- Value of a nonempty all-digit character list, most significant first;
`none` if empty or a non-digit occurs. -/
def parseDigits (cs : List Char) : Option Nat :=
  if cs ≠ [] && cs.all isDigitChar then
    some (cs.foldl (fun a c => 10 * a + digitVal c) 0)
  else
    none

/-- Embeds Python's builtin `int(s)` on strings: surrounding whitespace is
ignored, an optional sign precedes a nonempty run of decimal digits.
(Underscore digit grouping, an edge case unused by the claims, is not
modelled.) -/
def pyIntOfString (s : String) : Option Int :=
  let cs := ((s.data.dropWhile isPySpace).reverse.dropWhile isPySpace).reverse
  match cs with
  | '+' :: rest => (parseDigits rest).map Int.ofNat
  | '-' :: rest => (parseDigits rest).map (fun n => -(n : Int))
  | rest => (parseDigits rest).map Int.ofNat

/-- Embeds `parse_as_is` from `orr/dataloading.py`: returns the value
unchanged. -/
def parse_as_is (value : Value) : Except LoadError Value :=
  .ok value

/-- Embeds `parse_id` from `orr/dataloading.py`: returns the value
unchanged (the source performs no validation here). -/
def parse_id (value : Value) : Except LoadError Value :=
  .ok value

/-- Embeds `parse_i18n` from `orr/dataloading.py`: returns the value
unchanged. -/
def parse_i18n (value : Value) : Except LoadError Value :=
  .ok value

/-- Embeds `parse_int` from `orr/dataloading.py`.  Note the faithful
modelling of the source's `except ValueError:` handler, whose body is
`RuntimeError(...)` without a `raise`: a non-numeric string therefore
falls through with `value` still bound to the original string, which is
returned unchanged instead of aborting the load. -/
def parse_int (value : Value) : Except LoadError Value :=
  match value with
  | .vnull => .ok .vnull
  | .vstr s =>
      if s = "" then .ok .vnull
      else
        match pyIntOfString s with
        | some n => .ok (.vint n)
        | none => .ok (.vstr s)
  | .vint n => .ok (.vint n)
  | .vbool b => .ok (.vint (if b then 1 else 0))

/-- Embeds `parse_bool` from `orr/dataloading.py`: a string maps through
its first character (`YyTt1` to true, `NnFf0` to false, empty string to
null, anything else raises); an int maps to `value != 0`; bools and null
pass through. -/
def parse_bool (value : Value) : Except LoadError Value :=
  match value with
  | .vstr s =>
      match s.data with
      | [] => .ok .vnull
      | c :: _ =>
          if "YyTt1".data.contains c then .ok (.vbool true)
          else if "NnFf0".data.contains c then .ok (.vbool false)
          else .error .invalidValueFormat
  | .vint n => .ok (.vbool (n != 0))
  | .vbool b => .ok (.vbool b)
  | .vnull => .ok .vnull

/-- C4: the integer converter maps empty/null to null and parses other
numeric strings in base 10, but for a non-numeric string such as `"abc"`
the source constructs the error object without raising it (the `raise`
keyword is missing in `parse_int`'s `except ValueError:` handler), so the
original string is returned unchanged instead of the load failing with
InvalidValueFormat.  This theorem evaluates the embedded code at the
failing input. -/
theorem parse_int_missing_raise :
    parse_int Value.vnull = Except.ok Value.vnull ∧
    parse_int (Value.vstr "") = Except.ok Value.vnull ∧
    parse_int (Value.vstr "042") = Except.ok (Value.vint 42) ∧
    parse_int (Value.vstr "abc") = Except.ok (Value.vstr "abc") ∧
    parse_int (Value.vstr "abc") ≠ Except.error LoadError.invalidValueFormat := by
  refine ⟨rfl, rfl, rfl, rfl, ?_⟩
  intro h
  exact Except.noConfusion h

/-- C5 counterexample: the claim asserts `"2" → true`, but the string
`"2"` starts with neither a `Y`/`T`/`1`-class nor an `N`/`F`/`0`-class
character, so `parse_bool` raises (InvalidValueFormat) instead of
returning true. -/
theorem parse_bool_str_two_rejected :
    parse_bool (Value.vstr "2") = Except.error LoadError.invalidValueFormat ∧
    parse_bool (Value.vstr "2") ≠ Except.ok (Value.vbool true) := by
  refine ⟨rfl, ?_⟩
  intro h
  exact Except.noConfusion h

/-- C5 (amended): the tri-state boolean converter maps empty/null input to
null; a string whose leading character is in the `Y`/`T`/`1` class
(case-insensitive) to true; a string whose leading character is in the
`N`/`F`/`0` class to false; any other nonempty string — including `"2"`,
whose leading character is in neither class — to InvalidValueFormat; and
an integer to (value ≠ 0). -/
theorem parse_bool_spec :
    parse_bool Value.vnull = Except.ok Value.vnull ∧
    parse_bool (Value.vstr "") = Except.ok Value.vnull ∧
    (∀ (s : String) (c : Char) (cs : List Char), s.data = c :: cs →
      ("YyTt1".data.contains c = true →
        parse_bool (Value.vstr s) = Except.ok (Value.vbool true)) ∧
      ("NnFf0".data.contains c = true →
        parse_bool (Value.vstr s) = Except.ok (Value.vbool false)) ∧
      ("YyTt1".data.contains c = false → "NnFf0".data.contains c = false →
        parse_bool (Value.vstr s) = Except.error LoadError.invalidValueFormat)) ∧
    (∀ n : Int, parse_bool (Value.vint n) = Except.ok (Value.vbool (n != 0))) := by
  refine ⟨rfl, rfl, ?_, fun n => rfl⟩
  intro s c cs hs
  refine ⟨fun h1 => ?_, fun h2 => ?_, fun h1 h2 => ?_⟩
  · simp at h1
    rcases h1 with h | h | h | h | h <;> subst h <;> simp [parse_bool, hs]
  · simp at h2
    rcases h2 with h | h | h | h | h <;> subst h <;> simp [parse_bool, hs]
  · simp at h1 h2
    simp [parse_bool, hs, h1.1, h1.2.1, h1.2.2.1, h1.2.2.2.1, h1.2.2.2.2,
      h2.1, h2.2.1, h2.2.2.1, h2.2.2.2.1, h2.2.2.2.2]

/-- Witness for `parse_bool_spec` at the concrete inputs of the claim
(with the corrected value for the string `"2"`). -/
theorem parse_bool_spec_cases :
    parse_bool (Value.vstr "Y") = Except.ok (Value.vbool true) ∧
    parse_bool (Value.vstr "n") = Except.ok (Value.vbool false) ∧
    parse_bool (Value.vstr "") = Except.ok Value.vnull ∧
    parse_bool (Value.vstr "2") = Except.error LoadError.invalidValueFormat ∧
    parse_bool (Value.vstr "maybe") = Except.error LoadError.invalidValueFormat ∧
    parse_bool (Value.vint 2) = Except.ok (Value.vbool ((2 : Int) != 0)) ∧
    parse_bool (Value.vint 0) = Except.ok (Value.vbool ((0 : Int) != 0)) :=
  ⟨(parse_bool_spec.2.2.1 "Y" 'Y' [] rfl).1 (by decide),
   (parse_bool_spec.2.2.1 "n" 'n' [] rfl).2.1 (by decide),
   parse_bool_spec.2.1,
   (parse_bool_spec.2.2.1 "2" '2' [] rfl).2.2 (by decide) (by decide),
   (parse_bool_spec.2.2.1 "maybe" 'm' ['a', 'y', 'b', 'e'] rfl).2.2
     (by decide) (by decide),
   parse_bool_spec.2.2.2 2,
   parse_bool_spec.2.2.2 0⟩

/-- A raw input record: a decoded JSON object, modelled as an association
list from key to value (dict keys are unique in decoded JSON). -/
abbrev Record := List (String × Value)

/-- Embeds Python's `data.pop(key, None)` on a dict: returns the value
bound to `key` (or `none`) together with the record with that binding
removed. -/
def popKey (key : String) : Record → Option Value × Record
  | [] => (none, [])
  | (k, v) :: rest =>
      if k = key then (some v, rest)
      else
        let r := popKey key rest
        (r.1, (k, v) :: r.2)

/-- Embeds the `AutoAttr` configuration from `orr/dataloading.py`:
the attribute name to set, the conversion function, and the source data
key (`none` models `data_key=False`, i.e. no source data is read).
Context-dependency resolution (`make_load_value_kwargs`) never touches
the data record and is elided; converters are taken as closed functions. -/
structure AutoAttr where
  attr_name : String
  load_value : Value → Except LoadError Value
  data_key : Option String

/-- Embeds `AutoAttr.process_key`: with `data_key=False` the converter
runs on a null value and the record is untouched; otherwise the source
key is popped from the record, a missing key or a popped null value short
circuits (returning Python `None`, modelled as the `none` in the result),
and otherwise the converter runs on the popped value.  The result pairs
the produced value (if any) with the mutated record. -/
def AutoAttr.process_key (attr : AutoAttr) (data : Record) :
    Except LoadError (Option Value × Record) :=
  match attr.data_key with
  | none =>
      match attr.load_value Value.vnull with
      | .error e => .error e
      | .ok v => .ok (some v, data)
  | some key =>
      let p := popKey key data
      match p.1 with
      | none => .ok (none, p.2)
      | some v =>
          if v = Value.vnull then .ok (none, p.2)
          else
            match attr.load_value v with
            | .error e => .error e
            | .ok v' => .ok (some v', p.2)

/-- The attributes set so far on the model object under construction,
as an association list (Python object attribute dict). -/
abbrev ObjAttrs := List (String × Value)

/-- Embeds Python `setattr`: bind the attribute name, replacing any
earlier binding. -/
def setAttr (obj : ObjAttrs) (name : String) (v : Value) : ObjAttrs :=
  (name, v) :: obj.filter (fun p => p.1 != name)

/-- Embeds `process_auto_attr`: run `process_key`, then unconditionally
`setattr` the result on the model object — when `process_key` returned
early (absent key or null value) the Python value set is `None`,
modelled as `Value.vnull`. -/
def process_auto_attr (obj : ObjAttrs) (attr : AutoAttr) (data : Record) :
    Except LoadError (ObjAttrs × Record) :=
  match attr.process_key data with
  | .error e => .error e
  | .ok (v?, data') => .ok (setAttr obj attr.attr_name (v?.getD Value.vnull), data')

/-- The record entry consumed by one attribute binding from the given
record: the entry popped by `process_key`, if any.  (Pure recomputation
used to instrument the run of `load_object` with the consumed entries.) -/
def consumed_by_attr (attr : AutoAttr) (data : Record) : Record :=
  match attr.data_key with
  | none => []
  | some key =>
      match (popKey key data).1 with
      | none => []
      | some v => [(key, v)]

/-- The attribute-processing loop of `load_object`: run every binding in
declared order, also returning the final record and the list of record
entries consumed along the way. -/
def run_auto_attrs : List AutoAttr → ObjAttrs → Record →
    Except LoadError (ObjAttrs × Record × Record)
  | [], obj, data => .ok (obj, data, [])
  | attr :: rest, obj, data =>
      match attr.process_key data with
      | .error e => .error e
      | .ok (v?, data') =>
          match run_auto_attrs rest (setAttr obj attr.attr_name (v?.getD Value.vnull)) data' with
          | .error e => .error e
          | .ok (obj', data'', consumed) =>
              .ok (obj', data'', consumed_by_attr attr data ++ consumed)

/-- Embeds `load_object` from `orr/dataloading.py` (constructor kwargs and
the optional `finalize` hook elided, the object starting from no set
attributes): run all bindings, then fail with UnrecognizedField when any
key of the record is left over. -/
def load_object (attrs : List AutoAttr) (data : Record) : Except LoadError ObjAttrs :=
  match run_auto_attrs attrs [] data with
  | .error e => .error e
  | .ok (obj, data', _) =>
      if data' = [] then .ok obj else .error .unrecognizedField

/-- Popping an absent key leaves the record unchanged. -/
theorem popKey_fst_none (key : String) :
    ∀ data : Record, (popKey key data).1 = none → (popKey key data).2 = data := by
  intro data
  induction data with
  | nil => intro _; rfl
  | cons p rest ih =>
      by_cases hk : p.1 = key
      · simp [popKey, hk]
      · simp [popKey, hk]
        exact ih

/-- Popping a present key removes exactly that entry, up to permutation. -/
theorem popKey_fst_some (key : String) :
    ∀ (data : Record) (v : Value), (popKey key data).1 = some v →
      data.Perm ((key, v) :: (popKey key data).2) := by
  intro data
  induction data with
  | nil => intro v h; exact absurd h (by simp [popKey])
  | cons p rest ih =>
      intro v h
      by_cases hk : p.1 = key
      · simp [popKey, hk] at h ⊢
        rw [h.symm, ← hk]
      · simp [popKey, hk] at h ⊢
        exact ((ih v h).cons p).trans (List.Perm.swap _ _ _)

/-- One attribute binding removes exactly its consumed entry from the
record, up to permutation. -/
theorem process_key_perm (attr : AutoAttr) (data data' : Record) (v? : Option Value)
    (h : attr.process_key data = Except.ok (v?, data')) :
    data.Perm (consumed_by_attr attr data ++ data') := by
  cases hdk : attr.data_key with
  | none =>
      simp only [AutoAttr.process_key, hdk] at h
      simp only [consumed_by_attr, hdk, List.nil_append]
      cases hlv : attr.load_value Value.vnull with
      | error e => rw [hlv] at h; exact Except.noConfusion h
      | ok v =>
          rw [hlv] at h
          simp at h
          obtain ⟨h1, h2⟩ := h
          subst h2
          exact List.Perm.refl _
  | some key =>
      simp only [AutoAttr.process_key, hdk] at h
      simp only [consumed_by_attr, hdk]
      cases hp : (popKey key data).1 with
      | none =>
          rw [hp] at h
          simp at h
          obtain ⟨h1, h2⟩ := h
          subst h2
          simp [popKey_fst_none key data hp]
      | some v =>
          rw [hp] at h
          by_cases hv : v = Value.vnull
          · simp [hv] at h
            obtain ⟨h1, h2⟩ := h
            subst h2
            subst hv
            exact popKey_fst_some key data Value.vnull hp
          · simp [hv] at h
            cases hlv : attr.load_value v with
            | error e => rw [hlv] at h; exact Except.noConfusion h
            | ok v' =>
                rw [hlv] at h
                simp at h
                obtain ⟨h1, h2⟩ := h
                subst h2
                exact popKey_fst_some key data v hp

/-- The binding loop removes exactly the consumed entries from the
record, up to permutation. -/
theorem run_auto_attrs_perm :
    ∀ (attrs : List AutoAttr) (obj obj' : ObjAttrs) (data data' consumed : Record),
      run_auto_attrs attrs obj data = Except.ok (obj', data', consumed) →
      data.Perm (consumed ++ data') := by
  intro attrs
  induction attrs with
  | nil =>
      intro obj obj' data data' consumed h
      simp [run_auto_attrs] at h
      obtain ⟨h1, h2, h3⟩ := h
      subst h2
      subst h3
      simp
  | cons attr rest ih =>
      intro obj obj' data data' consumed h
      unfold run_auto_attrs at h
      cases hp : attr.process_key data with
      | error e => rw [hp] at h; exact Except.noConfusion h
      | ok r =>
          rw [hp] at h
          cases hr : run_auto_attrs rest (setAttr obj attr.attr_name (r.1.getD Value.vnull)) r.2 with
          | error e => simp [hr] at h
          | ok out =>
              simp [hr] at h
              have h1 := process_key_perm attr data r.2 r.1 (by rw [hp])
              have h2 := ih _ out.1 r.2 out.2.1 out.2.2 (by rw [hr])
              obtain ⟨ho, hd, hc⟩ := h
              subst hd
              subst hc
              refine h1.trans ?_
              rw [List.append_assoc]
              exact List.Perm.append_left _ h2

/-- C2: after all field bindings have run (`run_auto_attrs` returned
normally with final record `leftover` and consumed entries `consumed`),
the original record is exactly the consumed entries plus the leftover, as
multisets — each key was consumed by exactly one binding occurrence; when
the leftover is empty `load_object` succeeds and every original entry was
consumed; when any key remains `load_object` fails with
UnrecognizedField, so no field is silently dropped. -/
theorem load_object_consumes_all (attrs : List AutoAttr) (data : Record)
    (obj : ObjAttrs) (leftover consumed : Record)
    (h : run_auto_attrs attrs [] data = Except.ok (obj, leftover, consumed)) :
    data.Perm (consumed ++ leftover) ∧
    (leftover = [] → load_object attrs data = Except.ok obj ∧ data.Perm consumed) ∧
    (leftover ≠ [] → load_object attrs data = Except.error LoadError.unrecognizedField) := by
  have hperm := run_auto_attrs_perm attrs [] obj data leftover consumed h
  refine ⟨hperm, fun he => ⟨?_, ?_⟩, fun hne => ?_⟩
  · simp [load_object, h, he]
  · simpa [he] using hperm
  · simp [load_object, h, hne]

/-- A small loader configuration used as concrete witness input: an id
binding and a heading binding, as in `VotingGroupLoader`. -/
def sampleAttrs : List AutoAttr :=
  [⟨"id", parse_id, some "_id"⟩, ⟨"heading", parse_i18n, some "heading"⟩]

/-- A raw record matching `sampleAttrs`. -/
def sampleRecord : Record :=
  [("_id", Value.vstr "A1"), ("heading", Value.vstr "Hello")]

/-- The entries consumed by running `sampleAttrs` on `sampleRecord`. -/
def sampleConsumed : Record :=
  [("_id", Value.vstr "A1"), ("heading", Value.vstr "Hello")]

/-- The object produced by running `sampleAttrs` on `sampleRecord`. -/
def sampleObj : ObjAttrs :=
  [("heading", Value.vstr "Hello"), ("id", Value.vstr "A1")]

/-- Witness for `load_object_consumes_all` on a concrete successful run. -/
theorem load_object_consumes_all_sample :
    sampleRecord.Perm (sampleConsumed ++ ([] : Record)) ∧
    (([] : Record) = [] →
      load_object sampleAttrs sampleRecord = Except.ok sampleObj ∧
      sampleRecord.Perm sampleConsumed) ∧
    (([] : Record) ≠ [] →
      load_object sampleAttrs sampleRecord = Except.error LoadError.unrecognizedField) :=
  load_object_consumes_all sampleAttrs sampleRecord sampleObj [] sampleConsumed rfl

/-- C6 counterexample: a binding whose declared source key is absent from
the raw record does not leave the attribute unset — `process_auto_attr`
calls `setattr` unconditionally, so the attribute is assigned the null
value.  At the concrete input (binding for key `"is_vbm"` against an
empty record) the produced object carries the binding
`("is_vbm", null)` instead of no binding at all. -/
theorem absent_key_assigns_null :
    process_auto_attr [] ⟨"is_vbm", parse_bool, some "is_vbm"⟩ [] =
      Except.ok ([("is_vbm", Value.vnull)], []) ∧
    load_object [⟨"is_vbm", parse_bool, some "is_vbm"⟩] [] =
      Except.ok [("is_vbm", Value.vnull)] ∧
    ([("is_vbm", Value.vnull)] : ObjAttrs) ≠ [] := by
  refine ⟨rfl, rfl, ?_⟩
  intro h
  exact List.noConfusion h

/-- C6 (amended): for a binding whose declared source key is absent from
the raw record (or popped with a null value), and for a no-source-data
binding whose loader returns null, processing the binding assigns the
null value to the attribute — the attribute is always assigned, never
left unset. -/
theorem process_auto_attr_absent_sets_null (obj : ObjAttrs) (attr : AutoAttr)
    (data : Record) (key : String) :
    (attr.data_key = some key → (popKey key data).1 = none →
      process_auto_attr obj attr data =
        Except.ok (setAttr obj attr.attr_name Value.vnull, data)) ∧
    (attr.data_key = some key → (popKey key data).1 = some Value.vnull →
      process_auto_attr obj attr data =
        Except.ok (setAttr obj attr.attr_name Value.vnull, (popKey key data).2)) ∧
    (attr.data_key = none → attr.load_value Value.vnull = Except.ok Value.vnull →
      process_auto_attr obj attr data =
        Except.ok (setAttr obj attr.attr_name Value.vnull, data)) := by
  refine ⟨fun hdk hp => ?_, fun hdk hp => ?_, fun hdk hlv => ?_⟩
  · simp [process_auto_attr, AutoAttr.process_key, hdk, hp,
      popKey_fst_none key data hp]
  · simp [process_auto_attr, AutoAttr.process_key, hdk, hp]
  · simp [process_auto_attr, AutoAttr.process_key, hdk, hlv]

/-- Witness for `process_auto_attr_absent_sets_null` at concrete
inputs: an absent key, and a key popped with a null value. -/
theorem process_auto_attr_absent_sets_null_cases :
    process_auto_attr [] ⟨"short_name", parse_i18n, some "short_name"⟩
        [("_id", Value.vstr "A")] =
      Except.ok (setAttr [] "short_name" Value.vnull, [("_id", Value.vstr "A")]) ∧
    process_auto_attr [] ⟨"writeins_allowed", parse_int, some "writeins_allowed"⟩
        [("writeins_allowed", Value.vnull)] =
      Except.ok (setAttr [] "writeins_allowed" Value.vnull,
        (popKey "writeins_allowed" [("writeins_allowed", Value.vnull)]).2) :=
  ⟨(process_auto_attr_absent_sets_null []
      ⟨"short_name", parse_i18n, some "short_name"⟩
      [("_id", Value.vstr "A")] "short_name").1 rfl rfl,
   (process_auto_attr_absent_sets_null []
      ⟨"writeins_allowed", parse_int, some "writeins_allowed"⟩
      [("writeins_allowed", Value.vnull)] "writeins_allowed").2.1 rfl rfl⟩

/-- A loaded entity as seen by the registry builder: its id attribute and
an opaque payload standing for the rest of its attributes. -/
structure Entity where
  id : Value
  payload : Value
deriving DecidableEq, Repr

/-- Python truthiness of the raw values an id attribute can carry;
`if not obj.id:` fails for null, the empty string, zero and false. -/
def falsy : Value → Bool
  | .vnull => true
  | .vstr s => s = ""
  | .vint n => n == 0
  | .vbool b => !b

/-- An id registry under construction: an ordered id-to-entity mapping
(Python `OrderedDict`), insertion appending at the end. -/
abbrev Mapping := List (Value × Entity)

/-- Dict key lookup in the registry. -/
def lookupId (m : Mapping) (k : Value) : Option Entity :=
  match m with
  | [] => none
  | (k', e) :: rest => if k' = k then some e else lookupId rest k

/-- Embeds `add_object_by_id` from `orr/dataloading.py`: raise
MissingRequiredField when the object's id is falsy, raise DuplicateId
when the id is already a key of the mapping, otherwise append the
binding.  Both raises occur before the mapping is touched, so a failed
insertion leaves the registry unchanged. -/
def add_object_by_id (m : Mapping) (obj : Entity) : Except LoadError Mapping :=
  if falsy obj.id then .error .missingRequiredField
  else if (lookupId m obj.id).isSome then .error .duplicateId
  else .ok (m ++ [(obj.id, obj)])

/-- The insertion loop of `create_mapping_by_id`, starting from a given
registry state. -/
def create_mapping_go (m : Mapping) : List Entity → Except LoadError Mapping
  | [] => .ok m
  | obj :: rest =>
      match add_object_by_id m obj with
      | .error e => .error e
      | .ok m' => create_mapping_go m' rest

/-- Embeds `create_mapping_by_id` from `orr/dataloading.py`. -/
def create_mapping_by_id (objects : List Entity) : Except LoadError Mapping :=
  create_mapping_go [] objects

/-- The insertion loop distributes over list append. -/
theorem create_mapping_go_append (xs : List Entity) :
    ∀ (m : Mapping) (ys : List Entity),
      create_mapping_go m (xs ++ ys) =
        match create_mapping_go m xs with
        | .error e => .error e
        | .ok m' => create_mapping_go m' ys := by
  induction xs with
  | nil => intro m ys; simp [create_mapping_go]
  | cons x xs ih =>
      intro m ys
      simp only [List.cons_append, create_mapping_go]
      cases add_object_by_id m x with
      | error e => rfl
      | ok m' => exact ih m' ys

/-- C3: an entity with a falsy (empty/null) id makes the registry builder
fail with MissingRequiredField; an entity whose id is already registered
makes it fail with DuplicateId, the raise happening before any mutation,
so the registry still maps the id to the first occurrence; consequently a
whole `create_mapping_by_id` run over a sequence whose prefix built `m`
fails with DuplicateId at the second entity sharing an id, with the first
occurrence still the registered value at the point of failure. -/
theorem registry_duplicate_spec (m : Mapping) (obj e1 : Entity)
    (pre rest : List Entity) :
    (falsy obj.id = true →
      add_object_by_id m obj = Except.error LoadError.missingRequiredField) ∧
    (lookupId m obj.id = some e1 →
      falsy obj.id = false →
      add_object_by_id m obj = Except.error LoadError.duplicateId) ∧
    (create_mapping_by_id pre = Except.ok m →
      lookupId m obj.id = some e1 →
      falsy obj.id = false →
      create_mapping_by_id (pre ++ obj :: rest) =
        Except.error LoadError.duplicateId ∧
      lookupId m obj.id = some e1) := by
  refine ⟨fun hf => ?_, fun hl hf => ?_, fun hpre hl hf => ⟨?_, hl⟩⟩
  · simp [add_object_by_id, hf]
  · simp [add_object_by_id, hf, hl]
  · have hadd : add_object_by_id m obj = Except.error LoadError.duplicateId := by
      simp [add_object_by_id, hf, hl]
    unfold create_mapping_by_id at hpre ⊢
    rw [create_mapping_go_append pre [] (obj :: rest), hpre]
    simp [create_mapping_go, hadd]

/-- Witness for `registry_duplicate_spec`: two entities sharing the id
`"42"` (the spec's example); the second insertion raises DuplicateId with
the first occurrence still registered; an entity with an empty id raises
MissingRequiredField. -/
theorem registry_duplicate_cases :
    add_object_by_id [(Value.vstr "42", ⟨Value.vstr "42", Value.vstr "first"⟩)]
      ⟨Value.vstr "", Value.vnull⟩ =
      Except.error LoadError.missingRequiredField ∧
    add_object_by_id [(Value.vstr "42", ⟨Value.vstr "42", Value.vstr "first"⟩)]
      ⟨Value.vstr "42", Value.vstr "second"⟩ =
      Except.error LoadError.duplicateId ∧
    create_mapping_by_id
        [⟨Value.vstr "42", Value.vstr "first"⟩, ⟨Value.vstr "42", Value.vstr "second"⟩] =
      Except.error LoadError.duplicateId ∧
    lookupId [(Value.vstr "42", ⟨Value.vstr "42", Value.vstr "first"⟩)]
      (Value.vstr "42") = some ⟨Value.vstr "42", Value.vstr "first"⟩ :=
  ⟨(registry_duplicate_spec
      [(Value.vstr "42", ⟨Value.vstr "42", Value.vstr "first"⟩)]
      ⟨Value.vstr "", Value.vnull⟩ ⟨Value.vstr "42", Value.vstr "first"⟩ [] []).1 rfl,
   (registry_duplicate_spec
      [(Value.vstr "42", ⟨Value.vstr "42", Value.vstr "first"⟩)]
      ⟨Value.vstr "42", Value.vstr "second"⟩ ⟨Value.vstr "42", Value.vstr "first"⟩
      [] []).2.1 rfl rfl,
   (registry_duplicate_spec
      [(Value.vstr "42", ⟨Value.vstr "42", Value.vstr "first"⟩)]
      ⟨Value.vstr "42", Value.vstr "second"⟩ ⟨Value.vstr "42", Value.vstr "first"⟩
      [⟨Value.vstr "42", Value.vstr "first"⟩] []).2.2 rfl rfl rfl⟩

/-- A ballot item (Header or Contest) as seen by the linking pass: its id
and its `_header_id` attribute.  `none` models Python `None` (the
`header_id` key absent from the source record, in which case the loader
assigned `None`, see `process_auto_attr`). -/
structure BallotItem where
  id : String
  header_id : Option String
deriving DecidableEq, Repr

/-- The mutable linking state of the ballot-item graph: for each header
id its ordered `ballot_items` children list (item ids, in append order),
and for each item id its `parent_header` back reference. -/
structure LinkState where
  ballot_items : List (String × List String)
  parent_header : List (String × String)
deriving DecidableEq, Repr

/-- Append a child item id to a header's `ballot_items` list. -/
def appendChild (l : List (String × List String)) (hid iid : String) :
    List (String × List String) :=
  match l with
  | [] => [(hid, [iid])]
  | (k, xs) :: rest =>
      if k = hid then (k, xs ++ [iid]) :: rest
      else (k, xs) :: appendChild rest hid iid

/-- Set an item's `parent_header` back reference. -/
def setParent (l : List (String × String)) (iid hid : String) :
    List (String × String) :=
  (iid, hid) :: l.filter (fun p => p.1 != iid)

/-- The ordered children list of a header in a linking state. -/
def childrenOf (st : LinkState) (hid : String) : List String :=
  match st.ballot_items.find? (fun p => p.1 == hid) with
  | none => []
  | some p => p.2

/-- The parent reference of an item in a linking state (`none` = unset). -/
def parentOf (st : LinkState) (iid : String) : Option String :=
  match st.parent_header.find? (fun p => p.1 == iid) with
  | none => none
  | some p => some p.2

/-- Embeds `add_child_to_header` from `orr/dataloading.py`: append the
item to the header's `ballot_items` list and set the item's
`parent_header` back reference. -/
def add_child_to_header (hid iid : String) (st : LinkState) : LinkState :=
  { ballot_items := appendChild st.ballot_items hid iid,
    parent_header := setParent st.parent_header iid hid }

/-- Embeds `link_with_header` from `orr/dataloading.py`: a falsy
`_header_id` (Python `None` or the empty string) is a no-op; a non-empty
id absent from the header registry raises DanglingReference; a present id
links the item to its header.  `headers_by_id` is the key set of the
Header registry. -/
def link_with_header (item : BallotItem) (headers_by_id : List String)
    (st : LinkState) : Except LoadError LinkState :=
  match item.header_id with
  | none => .ok st
  | some hid =>
      if hid = "" then .ok st
      else if headers_by_id.contains hid then
        .ok (add_child_to_header hid item.id st)
      else .error .danglingReference

/-- `appendChild` appends to the addressed header's list. -/
theorem childrenOf_appendChild (hid iid : String) :
    ∀ l : List (String × List String),
      (match (appendChild l hid iid).find? (fun p => p.1 == hid) with
        | none => []
        | some p => p.2) =
      (match l.find? (fun p => p.1 == hid) with
        | none => []
        | some p => p.2) ++ [iid] := by
  intro l
  induction l with
  | nil => simp [appendChild]
  | cons p rest ih =>
      by_cases hk : p.1 = hid
      · simp [appendChild, hk]
      · simp [appendChild, hk, ih]

/-- C1: the header/contest tree-linking pass.  An item whose declared
`_header_id` is absent (`none`) or empty is a root: linking returns the
state unchanged (in particular its parent reference stays unset) and does
not fail.  A non-empty id present in the Header registry appends the item
to that header's ordered `ballot_items` children list and sets the item's
`parent_header` back reference to that header.  A non-empty id absent
from the registry fails with DanglingReference. -/
theorem link_with_header_spec (item : BallotItem) (headers_by_id : List String)
    (st : LinkState) (hid : String) :
    (item.header_id = none →
      link_with_header item headers_by_id st = Except.ok st) ∧
    (item.header_id = some "" →
      link_with_header item headers_by_id st = Except.ok st) ∧
    (item.header_id = some hid → hid ≠ "" → headers_by_id.contains hid = true →
      link_with_header item headers_by_id st =
        Except.ok (add_child_to_header hid item.id st) ∧
      childrenOf (add_child_to_header hid item.id st) hid =
        childrenOf st hid ++ [item.id] ∧
      parentOf (add_child_to_header hid item.id st) item.id = some hid) ∧
    (item.header_id = some hid → hid ≠ "" → headers_by_id.contains hid = false →
      link_with_header item headers_by_id st =
        Except.error LoadError.danglingReference) := by
  refine ⟨fun h => ?_, fun h => ?_, fun h hne hc => ⟨?_, ?_, ?_⟩, fun h hne hc => ?_⟩
  · simp [link_with_header, h]
  · simp [link_with_header, h]
  · simp at hc
    simp [link_with_header, h, hne, hc]
  · simp only [childrenOf, add_child_to_header]
    exact childrenOf_appendChild hid item.id st.ballot_items
  · simp [parentOf, add_child_to_header, setParent]
  · simp at hc
    simp [link_with_header, h, hne, hc]

/-- Header registry keys for the witness: headers `h1` and `h2`. -/
def wHeaders : List String := ["h1", "h2"]

/-- Initial linking state for the witness: both headers with empty
children lists and no parent references set. -/
def wSt0 : LinkState := ⟨[("h1", []), ("h2", [])], []⟩

/-- Linking state after attaching `h2` under `h1`. -/
def wSt1 : LinkState := add_child_to_header "h1" "h2" wSt0

/-- Witness for `link_with_header_spec` on the spec's tree example:
header `h1` has no parent, header `h2` declares parent `h1`, contest `c1`
declares parent `h2`; a contest declaring the unknown parent `zz` fails
with DanglingReference. -/
theorem link_with_header_cases :
    link_with_header ⟨"h1", none⟩ wHeaders wSt0 = Except.ok wSt0 ∧
    (link_with_header ⟨"h2", some "h1"⟩ wHeaders wSt0 = Except.ok wSt1 ∧
      childrenOf wSt1 "h1" = childrenOf wSt0 "h1" ++ ["h2"] ∧
      parentOf wSt1 "h2" = some "h1") ∧
    (link_with_header ⟨"c1", some "h2"⟩ wHeaders wSt1 =
        Except.ok (add_child_to_header "h2" "c1" wSt1) ∧
      childrenOf (add_child_to_header "h2" "c1" wSt1) "h2" =
        childrenOf wSt1 "h2" ++ ["c1"] ∧
      parentOf (add_child_to_header "h2" "c1" wSt1) "c1" = some "h2") ∧
    link_with_header ⟨"c2", some "zz"⟩ wHeaders wSt1 =
      Except.error LoadError.danglingReference :=
  ⟨(link_with_header_spec ⟨"h1", none⟩ wHeaders wSt0 "h1").1 rfl,
   (link_with_header_spec ⟨"h2", some "h1"⟩ wHeaders wSt0 "h1").2.2.1
     rfl (by decide) (by rfl),
   (link_with_header_spec ⟨"c1", some "h2"⟩ wHeaders wSt1 "h2").2.2.1
     rfl (by decide) (by rfl),
   (link_with_header_spec ⟨"c2", some "zz"⟩ wHeaders wSt1 "zz").2.2.2
     rfl (by decide) (by rfl)⟩

/-- Removes trailing whitespace, as Python `str.rstrip()`. -/
def rstripChars (cs : List Char) : List Char :=
  (cs.reverse.dropWhile isPySpace).reverse

/-- Split a character list on every occurrence of the separator,
keeping empty fields, as Python `str.split(sep)` for a one-character
separator. -/
def splitCharList (sep : Char) : List Char → List (List Char)
  | [] => [[]]
  | c :: rest =>
      let r := splitCharList sep rest
      if c = sep then [] :: r
      else
        match r with
        | [] => [[c]]
        | f :: fs => (c :: f) :: fs

/-- The per-separator reverse character translation of `split_line`
(`unmap_tsv_data` / `unmap_psv_data` / `unmap_csv_data`): restore an
embedded newline or separator from its UTF-8 substitute.  For any other
separator the source selects no translation table. -/
def unmapChar (sep c : Char) : Char :=
  if sep = '\t' then
    if c = '␤' then '\n' else if c = '␉' then '\t' else c
  else if sep = '|' then
    if c = '␤' then '\n' else if c = '¦' then '|' else c
  else if sep = ',' then
    if c = '␤' then '\n' else if c = '，' then ',' else c
  else c

/-- Embeds `split_line` from `orr/tsvio.py`: strip trailing whitespace,
split on the separator, unmap the substitute characters in each field. -/
def split_line (line : String) (sep : Char) : List String :=
  (splitCharList sep (rstripChars line.data)).map
    (fun f => String.mk (f.map (unmapChar sep)))

/-- The separator-relevant state of a `TSVStream` object. -/
structure TSVStream where
  sep : Option Char
  num_columns : Nat
  header : Option (List String)
  read_header : Bool
deriving DecidableEq, Repr

/-- Embeds `TSVStream.__init__` from `orr/tsvio.py`.  Note the faithful
modelling of `if sep is None: sep = '\t'`: a missing separator argument
is replaced by a tab ALREADY HERE, which makes the `if self.sep is None`
auto-detection branch inside `__iter__` unreachable. -/
def TSVStream.init (sep : Option Char) (read_header : Bool) : TSVStream :=
  { sep := some (sep.getD '\t'), num_columns := 0, header := none,
    read_header := read_header }

/-- The delimiter search of `TSVStream.__iter__`: the first of tab, pipe,
comma occurring in the header line. -/
def detect_sep (line : String) : Option Char :=
  if line.data.contains '\t' then some '\t'
  else if line.data.contains '|' then some '|'
  else if line.data.contains ',' then some ','
  else none

/-- Embeds the header-reading prefix of `TSVStream.__iter__`: when
configured to read a header, derive the delimiter if `self.sep` is still
`None` (dead code in practice, see `TSVStream.init`), raise when no
delimiter is found, and store the split header and its column count. -/
def TSVStream.read_header_line (st : TSVStream) (line : String) :
    Except LoadError TSVStream :=
  if st.read_header then
    match (match st.sep with
           | none => detect_sep line
           | some c => some c) with
    | none => .error .noDelimiterFound
    | some c =>
        let hdr := split_line line c
        .ok { st with sep := some c, header := some hdr,
                      num_columns := hdr.length }
  else
    .ok { st with sep := some (st.sep.getD '\t') }

/-- Embeds `TSVStream.convline`: split a data line on the stream's
separator and pad with empty strings up to the header's column count. -/
def TSVStream.convline (st : TSVStream) (line : String) : List String :=
  let parts := split_line line (st.sep.getD '\t')
  if parts.length < st.num_columns then
    parts ++ List.replicate (st.num_columns - parts.length) ""
  else parts

/-- Embeds `TSVReader.__enter__` from `orr/tsvio.py`: the stream is
constructed as `TSVStream(stream)`, WITHOUT forwarding the reader's
stored `sep` and `read_header` arguments. -/
def TSVReader.enter (_sep : Option Char) (_read_header : Bool) : TSVStream :=
  TSVStream.init none true

/-- C9: delimiter auto-detection never happens.  A reader opened without
an explicitly supplied separator already has `sep = '\t'` after
`TSVStream.__init__` (and `__enter__` drops the stored arguments
entirely), so the detection loop guarded by `if self.sep is None` in
`__iter__` is unreachable: a comma-delimited header line `"a,b"` is read
as the single column `["a,b"]` with the separator still tab, although
the advertised detection (`detect_sep`) would have found the comma and
split the header as `["a", "b"]`.  Subsequent rows are likewise split on
tab, not on the detected delimiter.  (Row padding itself works, last
conjunct.) -/
theorem tsv_autodetect_unreachable :
    (TSVReader.enter none true).sep = some '\t' ∧
    (TSVReader.enter none true).read_header_line "a,b\n" =
      Except.ok { sep := some '\t', num_columns := 1, header := some ["a,b"],
                  read_header := true } ∧
    detect_sep "a,b\n" = some ',' ∧
    split_line "a,b\n" ',' = ["a", "b"] ∧
    ({ sep := some '\t', num_columns := 1, header := some ["a,b"],
       read_header := true } : TSVStream).convline "1,2\n" = ["1,2"] ∧
    ({ sep := some '\t', num_columns := 3, header := some ["x", "y", "z"],
       read_header := true } : TSVStream).convline "only\n" =
      ["only", "", ""] := by
  refine ⟨rfl, rfl, rfl, rfl, rfl, rfl⟩

/-- A candidate as seen by the RCV results model: its id and its 0-based
declaration index (ids are integers, as in the module's own tests). -/
structure Candidate where
  id : Int
  index : Nat
deriving DecidableEq, Repr

/-- A result statistic type, identified by its id. -/
structure ResultStatType where
  id : Int
deriving DecidableEq, Repr

/-- Modelled from the spec: `ResultsMapping` from `orr/datamodel.py`,
which is not under `src/` (only its callers and tests are).  Per spec §6
a result row lays out the contest-level stat columns first, then one
column per candidate in declared order; the mapping encodes the positions
of candidates and stats within a row. -/
structure ResultsMapping where
  result_stat_types : List ResultStatType
  choice_count : Nat
deriving DecidableEq, Repr

/-- Modelled from the spec: `ResultsMapping.get_stat_index` — the
position of a stat within the declared stat columns, which lead the row. -/
def ResultsMapping.get_stat_index (rm : ResultsMapping) (stat : ResultStatType) :
    Option Nat :=
  rm.result_stat_types.findIdx? (fun s => s == stat)

/-- Modelled from the spec: `ResultsMapping.get_candidate_index` — the
candidate columns follow the stat columns in declared candidate order. -/
def ResultsMapping.get_candidate_index (rm : ResultsMapping) (cand : Candidate) :
    Nat :=
  rm.result_stat_types.length + cand.index

/-- Embeds `CandidateRound` from `orr/models/rcvresults.py` (the `votes`
attribute holds the round total). -/
structure CandidateRound where
  round_num : Nat
  votes : Int
  transfer : Int
  continuing : Option Int
  after_eliminated : Bool
deriving DecidableEq, Repr

/-- Embeds `RCVResults` from `orr/models/rcvresults.py`: the raw round
totals (first round first; a `none` entry is the null placeholder for an
eliminated candidate), the column mapping, the candidates and the
continuing-ballots stat. -/
structure RCVResults where
  rcv_totals : List (List (Option Int))
  results_mapping : ResultsMapping
  candidates : List Candidate
  continuing_stat : ResultStatType
deriving Repr

/-- The loop body of `get_candidate_rounds`, processing the remaining
round rows: `idx`/`cidx` are the candidate's and the continuing stat's
columns, `prev` the previous round's total, `n` the current 1-based round
number.  A row too short for either column models the `IndexError` the
Python indexing would raise (`none`).  A null total becomes 0 with the
round marked after-eliminated and the loop breaks after appending it. -/
def rounds_go (idx cidx : Nat) : Int → Nat → List (List (Option Int)) →
    Option (List CandidateRound)
  | _, _, [] => some []
  | prev, n, rt :: rest => do
      let raw ← rt[idx]?
      let cont ← rt[cidx]?
      match raw with
      | none => some [⟨n, 0, 0 - prev, cont, true⟩]
      | some t => do
          let tail ← rounds_go idx cidx t (n + 1) rest
          some (⟨n, t, t - prev, cont, false⟩ :: tail)

/-- Embeds `RCVResults.get_candidate_rounds`. -/
def RCVResults.get_candidate_rounds (r : RCVResults) (cand : Candidate) :
    Option (List CandidateRound) := do
  let cidx ← r.results_mapping.get_stat_index r.continuing_stat
  rounds_go (r.results_mapping.get_candidate_index cand) cidx 0 1 r.rcv_totals

/-- Embeds `RCVResults.find_max_round`: the last round of the candidate's
history, or the second-to-last when the last is the after-eliminated
placeholder; `rounds[-1]` on an empty history and `rounds[-2]` on a
one-element history model the `IndexError` Python raises (`none`). -/
def RCVResults.find_max_round (r : RCVResults) (cand : Candidate) :
    Option CandidateRound := do
  let rounds ← r.get_candidate_rounds cand
  let last ← rounds.getLast?
  if last.after_eliminated then
    if 2 ≤ rounds.length then rounds[rounds.length - 2]? else none
  else
    some last

/-- Embeds `RCVResults.get_round_totals` (1-based round number). -/
def RCVResults.get_round_totals (r : RCVResults) (round_num : Nat) :
    Option (List (Option Int)) :=
  r.rcv_totals[round_num - 1]?

/-- Embeds `RCVResults.get_candidate_total`: the candidate's raw total in
a round (`some none` is the null placeholder; outer `none` models an
index error). -/
def RCVResults.get_candidate_total (r : RCVResults) (cand : Candidate)
    (round_num : Nat) : Option (Option Int) := do
  let rt ← r.get_round_totals round_num
  rt[r.results_mapping.get_candidate_index cand]?

/-- Insert into an ordered dict keyed by candidate id, overwriting in
place as Python dict assignment does. -/
def assocSet (m : List (Int × CandidateRound)) (k : Int) (v : CandidateRound) :
    List (Int × CandidateRound) :=
  match m with
  | [] => [(k, v)]
  | (k', v') :: rest =>
      if k' = k then (k, v) :: rest else (k', v') :: assocSet rest k v

/-- Dict lookup by candidate id. -/
def assocGet (m : List (Int × CandidateRound)) (k : Int) : Option CandidateRound :=
  match m with
  | [] => none
  | (k', v') :: rest => if k' = k then some v' else assocGet rest k

/-- The loop of `compute_max_rounds`. -/
def compute_max_rounds_go (r : RCVResults) (m : List (Int × CandidateRound)) :
    List Candidate → Option (List (Int × CandidateRound))
  | [] => some m
  | c :: cs => do
      let mr ← r.find_max_round c
      compute_max_rounds_go r (assocSet m c.id mr) cs

/-- Embeds `RCVResults.compute_max_rounds`: a dict mapping candidate id
to that candidate's max round. -/
def RCVResults.compute_max_rounds (r : RCVResults) :
    Option (List (Int × CandidateRound)) :=
  compute_max_rounds_go r [] r.candidates

/-- Embeds the `key` closure of `compute_order_info`:
`(-round_num, -total, id)` for the candidate's max round; `none` models
the `TypeError` Python would raise negating a null total (and the
`KeyError` of a missing dict entry). -/
def RCVResults.candidate_sort_key (r : RCVResults)
    (max_rounds : List (Int × CandidateRound)) (c : Candidate) :
    Option (Int × Int × Int) := do
  let mr ← assocGet max_rounds c.id
  let tot ← r.get_candidate_total c mr.round_num
  let t ← tot
  some (-(mr.round_num : Int), -t, c.id)

/-- Lexicographic comparison of sort-key triples, as Python compares the
key tuples during `sorted`. -/
def tupLe (a b : Int × Int × Int) : Bool :=
  if a.1 < b.1 then true
  else if b.1 < a.1 then false
  else if a.2.1 < b.2.1 then true
  else if b.2.1 < a.2.1 then false
  else a.2.2 ≤ b.2.2

/-- Map a fallible function over a list, failing as soon as the function
does (the effect order of a Python list comprehension). -/
def mapMOpt (f : α → Option β) : List α → Option (List β)
  | [] => some []
  | a :: l => do
      let b ← f a
      let bs ← mapMOpt f l
      some (b :: bs)

/-- Embeds `RCVResults.compute_order_info`: compute the max-rounds dict,
compute each candidate's sort key, and stable-sort the candidates by key
(Python `sorted` with a key function = a stable merge sort on the
precomputed keys). -/
def RCVResults.compute_order_info (r : RCVResults) :
    Option (List Candidate × List (Int × CandidateRound)) := do
  let max_rounds ← r.compute_max_rounds
  let keyed ← mapMOpt
    (fun c => (r.candidate_sort_key max_rounds c).map (fun k => (k, c)))
    r.candidates
  some ((keyed.mergeSort (fun a b => tupLe a.1 b.1)).map (fun p => p.2),
        max_rounds)

/-- Embeds `RCVResults.compute_candidate_order`. -/
def RCVResults.compute_candidate_order (r : RCVResults) :
    Option (List Candidate) := do
  let oi ← r.compute_order_info
  some oi.1

/-- Full characterization of the round history produced by `rounds_go`:
round numbering starts at `n`, the transfer recurrence starts from
`prev`, votes and the after-eliminated flag mirror the raw totals, the
flag stops the history, and the history covers all rounds unless it was
stopped by a null total. -/
theorem rounds_go_spec (idx cidx : Nat) :
    ∀ (totals : List (List (Option Int))) (prev : Int) (n : Nat)
      (rounds : List CandidateRound),
      rounds_go idx cidx prev n totals = some rounds →
      (∀ (i : Nat) (cr : CandidateRound),
        rounds[i]? = some cr → cr.round_num = n + i) ∧
      (∀ cr : CandidateRound,
        rounds[0]? = some cr → cr.transfer = cr.votes - prev) ∧
      (∀ (i : Nat) (cr cr' : CandidateRound),
        rounds[i]? = some cr → rounds[i + 1]? = some cr' →
        cr'.transfer = cr'.votes - cr.votes) ∧
      (∀ (i : Nat) (cr : CandidateRound), rounds[i]? = some cr →
        ∃ (row : List (Option Int)) (raw : Option Int),
          totals[i]? = some row ∧ row[idx]? = some raw ∧
          cr.votes = raw.getD 0 ∧ cr.after_eliminated = raw.isNone) ∧
      (∀ (i : Nat) (cr : CandidateRound),
        rounds[i]? = some cr → cr.after_eliminated = true →
        rounds.length = i + 1) ∧
      (rounds.length = totals.length ∨
        ∃ cr, rounds[rounds.length - 1]? = some cr ∧
          cr.after_eliminated = true) := by
  intro totals
  induction totals with
  | nil =>
      intro prev n rounds h
      simp [rounds_go] at h
      subst h
      exact ⟨fun i cr hi => by simp at hi, fun cr hi => by simp at hi,
             fun i cr cr' hi _ => by simp at hi, fun i cr hi => by simp at hi,
             fun i cr hi _ => by simp at hi, Or.inl rfl⟩
  | cons rt rest ih =>
      intro prev n rounds h
      cases hraw : rt[idx]? with
      | none => simp [rounds_go, hraw] at h
      | some raw =>
          cases hcont : rt[cidx]? with
          | none => simp [rounds_go, hraw, hcont] at h
          | some cont =>
              cases raw with
              | none =>
                  simp [rounds_go, hraw, hcont] at h
                  subst h
                  refine ⟨?_, ?_, ?_, ?_, ?_, Or.inr ?_⟩
                  · intro i cr hi
                    cases i with
                    | zero => simp at hi; subst hi; simp
                    | succ i => simp at hi
                  · intro cr hi
                    simp at hi
                    subst hi
                    simp
                  · intro i cr cr' hi hi'
                    cases i with
                    | zero => simp at hi'
                    | succ i => simp at hi
                  · intro i cr hi
                    cases i with
                    | zero =>
                        simp at hi
                        subst hi
                        exact ⟨rt, none, by simp, hraw, rfl, rfl⟩
                    | succ i => simp at hi
                  · intro i cr hi _
                    cases i with
                    | zero => rfl
                    | succ i => simp at hi
                  · simp
              | some t =>
                  cases hrec : rounds_go idx cidx t (n + 1) rest with
                  | none => simp [rounds_go, hraw, hcont, hrec] at h
                  | some tail =>
                      simp [rounds_go, hraw, hcont, hrec] at h
                      subst h
                      obtain ⟨ih1, ih2, ih3, ih4, ih5, ih6⟩ :=
                        ih t (n + 1) tail hrec
                      refine ⟨?_, ?_, ?_, ?_, ?_, ?_⟩
                      · intro i cr hi
                        cases i with
                        | zero => simp at hi; subst hi; simp
                        | succ i =>
                            rw [List.getElem?_cons_succ] at hi
                            have := ih1 i cr hi
                            omega
                      · intro cr hi
                        simp at hi
                        subst hi
                        rfl
                      · intro i cr cr' hi hi'
                        cases i with
                        | zero =>
                            simp at hi
                            subst hi
                            rw [List.getElem?_cons_succ] at hi'
                            simpa using ih2 cr' hi'
                        | succ i =>
                            rw [List.getElem?_cons_succ] at hi hi'
                            exact ih3 i cr cr' hi hi'
                      · intro i cr hi
                        cases i with
                        | zero =>
                            simp at hi
                            subst hi
                            exact ⟨rt, some t, by simp, hraw, rfl, rfl⟩
                        | succ i =>
                            rw [List.getElem?_cons_succ] at hi
                            obtain ⟨row, raw, h1, h2, h3, h4⟩ := ih4 i cr hi
                            exact ⟨row, raw, by simpa using h1, h2, h3, h4⟩
                      · intro i cr hi hae
                        cases i with
                        | zero => simp at hi; subst hi; simp at hae
                        | succ i =>
                            rw [List.getElem?_cons_succ] at hi
                            have := ih5 i cr hi hae
                            simp [this]
                      · rcases ih6 with hlen | ⟨cr, hcr, hae⟩
                        · left; simp [hlen]
                        · right
                          refine ⟨cr, ?_, hae⟩
                          cases tail with
                          | nil => simp at hcr
                          | cons t0 ts => simpa using hcr

/-- Successful `get_candidate_rounds` runs factor through `rounds_go`
with the continuing stat resolved. -/
theorem get_candidate_rounds_split (r : RCVResults) (cand : Candidate)
    (rounds : List CandidateRound)
    (h : r.get_candidate_rounds cand = some rounds) :
    ∃ cidx, r.results_mapping.get_stat_index r.continuing_stat = some cidx ∧
      rounds_go (r.results_mapping.get_candidate_index cand) cidx 0 1
        r.rcv_totals = some rounds := by
  unfold RCVResults.get_candidate_rounds at h
  cases hc : r.results_mapping.get_stat_index r.continuing_stat with
  | none => rw [hc] at h; exact Option.noConfusion h
  | some cidx =>
      rw [hc] at h
      simp at h
      exact ⟨cidx, rfl, h⟩

/-- The two stat columns of the test sample in
`orr/models/tests/test_rcvresults.py` (Registered, Continuing). -/
def sampleStats : List ResultStatType := [⟨20⟩, ⟨21⟩]

/-- The sample results mapping: two stat columns then four candidates. -/
def sampleMapping : ResultsMapping := ⟨sampleStats, 4⟩

/-- The four sample candidates. -/
def sampleCands : List Candidate := [⟨100, 0⟩, ⟨101, 1⟩, ⟨102, 2⟩, ⟨103, 3⟩]

/-- The sample RCV totals (`SAMPLE_RCV_TOTALS`), the claim's rounds. -/
def sampleTotals : List (List (Option Int)) :=
  [[some 10000, some 2000, some 600, some 800, some 400, some 200],
   [some 10000, some 1900, some 650, some 820, some 430, none],
   [some 10000, some 1850, none, some 1120, some 730, none]]

/-- The sample `RCVResults`, continuing stat at column 1. -/
def sampleRCV : RCVResults := ⟨sampleTotals, sampleMapping, sampleCands, ⟨21⟩⟩

/-- The round history of the candidate at column 2 (id 100, index 0) on
the sample data. -/
def aliceRounds : List CandidateRound :=
  [⟨1, 600, 600, some 2000, false⟩, ⟨2, 650, 50, some 1900, false⟩,
   ⟨3, 0, -650, some 1850, true⟩]

/-- C7: the generated round history.  General contract, for every
candidate and totals list on which `get_candidate_rounds` returns: rounds
are numbered from 1; the first transfer equals the first total
(total(0) = 0) and every later transfer is total(N) − total(N−1); each
round's total is the raw total with the null placeholder replaced by 0
and the after-eliminated mark set exactly on a null; a marked round ends
the history; and the history covers all rounds unless it was stopped by a
null.  Concrete part: on the sample rounds the candidate at column 2
yields round 1 total 600 transfer 600, round 2 total 650 transfer 50,
round 3 total 0 transfer −650 marked after-eliminated, and the computed
max round is 2. -/
theorem rcv_round_history (r : RCVResults) (cand : Candidate)
    (rounds : List CandidateRound)
    (h : r.get_candidate_rounds cand = some rounds) :
    ((∀ (i : Nat) (cr : CandidateRound),
        rounds[i]? = some cr → cr.round_num = i + 1) ∧
     (∀ cr : CandidateRound, rounds[0]? = some cr → cr.transfer = cr.votes) ∧
     (∀ (i : Nat) (cr cr' : CandidateRound), rounds[i]? = some cr →
        rounds[i + 1]? = some cr' → cr'.transfer = cr'.votes - cr.votes) ∧
     (∀ (i : Nat) (cr : CandidateRound), rounds[i]? = some cr →
        ∃ (row : List (Option Int)) (raw : Option Int),
          r.rcv_totals[i]? = some row ∧
          row[r.results_mapping.get_candidate_index cand]? = some raw ∧
          cr.votes = raw.getD 0 ∧ cr.after_eliminated = raw.isNone) ∧
     (∀ (i : Nat) (cr : CandidateRound), rounds[i]? = some cr →
        cr.after_eliminated = true → rounds.length = i + 1) ∧
     (rounds.length = r.rcv_totals.length ∨
       ∃ cr, rounds[rounds.length - 1]? = some cr ∧
         cr.after_eliminated = true)) ∧
    (sampleRCV.get_candidate_rounds ⟨100, 0⟩ = some aliceRounds ∧
     (sampleRCV.find_max_round ⟨100, 0⟩).map CandidateRound.round_num =
       some 2) := by
  obtain ⟨cidx, hcidx, hrg⟩ := get_candidate_rounds_split r cand rounds h
  obtain ⟨g1, g2, g3, g4, g5, g6⟩ :=
    rounds_go_spec (r.results_mapping.get_candidate_index cand) cidx
      r.rcv_totals 0 1 rounds hrg
  refine ⟨⟨?_, ?_, g3, g4, g5, g6⟩, rfl, rfl⟩
  · intro i cr hi
    have := g1 i cr hi
    omega
  · intro cr hi
    have := g2 cr hi
    omega

/-- Witness for `rcv_round_history` at the sample data and the candidate
at column 2. -/
theorem rcv_round_history_sample :
    ((∀ (i : Nat) (cr : CandidateRound),
        aliceRounds[i]? = some cr → cr.round_num = i + 1) ∧
     (∀ cr : CandidateRound,
        aliceRounds[0]? = some cr → cr.transfer = cr.votes) ∧
     (∀ (i : Nat) (cr cr' : CandidateRound), aliceRounds[i]? = some cr →
        aliceRounds[i + 1]? = some cr' →
        cr'.transfer = cr'.votes - cr.votes) ∧
     (∀ (i : Nat) (cr : CandidateRound), aliceRounds[i]? = some cr →
        ∃ (row : List (Option Int)) (raw : Option Int),
          sampleRCV.rcv_totals[i]? = some row ∧
          row[sampleRCV.results_mapping.get_candidate_index ⟨100, 0⟩]? =
            some raw ∧
          cr.votes = raw.getD 0 ∧ cr.after_eliminated = raw.isNone) ∧
     (∀ (i : Nat) (cr : CandidateRound), aliceRounds[i]? = some cr →
        cr.after_eliminated = true → aliceRounds.length = i + 1) ∧
     (aliceRounds.length = sampleRCV.rcv_totals.length ∨
       ∃ cr, aliceRounds[aliceRounds.length - 1]? = some cr ∧
         cr.after_eliminated = true)) ∧
    (sampleRCV.get_candidate_rounds ⟨100, 0⟩ = some aliceRounds ∧
     (sampleRCV.find_max_round ⟨100, 0⟩).map CandidateRound.round_num =
       some 2) :=
  rcv_round_history sampleRCV ⟨100, 0⟩ aliceRounds rfl

/-- C10: `find_max_round` is partial.  First part: for a candidate whose
round-1 total is already the null placeholder, the round history is the
single after-eliminated round 1 and `find_max_round` hits `rounds[-2]`
on a one-element list — an out-of-range access (modelled as `none`)
instead of a round.  Second part: whenever `find_max_round` returns a
round, the candidate's first-round total exists and is non-null. -/
theorem find_max_round_oob :
    (∀ (r : RCVResults) (cand : Candidate) (row : List (Option Int))
       (rest : List (List (Option Int))) (cidx : Nat) (cv : Option Int),
      r.results_mapping.get_stat_index r.continuing_stat = some cidx →
      r.rcv_totals = row :: rest →
      row[r.results_mapping.get_candidate_index cand]? = some none →
      row[cidx]? = some cv →
      r.get_candidate_rounds cand = some [⟨1, 0, 0, cv, true⟩] ∧
      r.find_max_round cand = none) ∧
    (∀ (r : RCVResults) (cand : Candidate) (mr : CandidateRound),
      r.find_max_round cand = some mr →
      ∃ (row : List (Option Int)) (rest : List (List (Option Int))) (t : Int),
        r.rcv_totals = row :: rest ∧
        row[r.results_mapping.get_candidate_index cand]? = some (some t)) := by
  constructor
  · intro r cand row rest cidx cv hc ht hraw hcv
    have hcr : r.get_candidate_rounds cand = some [⟨1, 0, 0, cv, true⟩] := by
      unfold RCVResults.get_candidate_rounds
      rw [hc, ht]
      simp [rounds_go, hraw, hcv]
    refine ⟨hcr, ?_⟩
    unfold RCVResults.find_max_round
    rw [hcr]
    simp
  · intro r cand mr h
    unfold RCVResults.find_max_round at h
    cases hcr : r.get_candidate_rounds cand with
    | none => rw [hcr] at h; exact Option.noConfusion h
    | some rounds =>
        rw [hcr] at h
        simp at h
        obtain ⟨cidx, hcidx, hrg⟩ := get_candidate_rounds_split r cand rounds hcr
        obtain ⟨g1, g2, g3, g4, g5, g6⟩ :=
          rounds_go_spec (r.results_mapping.get_candidate_index cand) cidx
            r.rcv_totals 0 1 rounds hrg
        cases hrds : rounds with
        | nil => rw [hrds] at h; simp at h
        | cons cr0 rs =>
            have h0 : rounds[0]? = some cr0 := by rw [hrds]; simp
            have hae0 : cr0.after_eliminated = false := by
              cases hae : cr0.after_eliminated with
              | false => rfl
              | true =>
                  have hlen := g5 0 cr0 h0 hae
                  rw [hrds] at hlen
                  simp at hlen
                  subst hlen
                  rw [hrds] at h
                  simp [hae] at h
            obtain ⟨rowx, raw, hrow, hrawx, hv, hai⟩ := g4 0 cr0 h0
            have hne : raw.isNone = false := by rw [← hai, hae0]
            cases raw with
            | none => simp at hne
            | some t =>
                cases htot : r.rcv_totals with
                | nil => rw [htot] at hrow; simp at hrow
                | cons row0 rest =>
                    rw [htot] at hrow
                    simp at hrow
                    subst hrow
                    exact ⟨row0, rest, t, rfl, hrawx⟩

/-- One-round RCV results whose single candidate has a null round-1
total (one stat column, the continuing stat, then the candidate column). -/
def nullFirstRCV : RCVResults :=
  ⟨[[some 10, none]], ⟨[⟨21⟩], 1⟩, [⟨100, 0⟩], ⟨21⟩⟩

/-- Witness for `find_max_round_oob`: the out-of-range failure on a
candidate eliminated before round 1, and the non-null first-round total
behind a successful run on the sample data. -/
theorem find_max_round_oob_cases :
    (nullFirstRCV.get_candidate_rounds ⟨100, 0⟩ =
        some [⟨1, 0, 0, some 10, true⟩] ∧
      nullFirstRCV.find_max_round ⟨100, 0⟩ = none) ∧
    (∃ (row : List (Option Int)) (rest : List (List (Option Int))) (t : Int),
      sampleRCV.rcv_totals = row :: rest ∧
      row[sampleRCV.results_mapping.get_candidate_index ⟨100, 0⟩]? =
        some (some t)) :=
  ⟨find_max_round_oob.1 nullFirstRCV ⟨100, 0⟩ [some 10, none] [] 0
      (some 10) rfl rfl rfl rfl,
   find_max_round_oob.2 sampleRCV ⟨100, 0⟩ ⟨2, 650, 50, some 1900, false⟩
      rfl⟩

/-- `tupLe` is transitive. -/
theorem tupLe_trans (a b c : Int × Int × Int)
    (hab : tupLe a b = true) (hbc : tupLe b c = true) : tupLe a c = true := by
  unfold tupLe at hab hbc ⊢
  split_ifs at hab hbc ⊢ <;> simp_all <;> omega

/-- `tupLe` is total. -/
theorem tupLe_total (a b : Int × Int × Int) :
    (tupLe a b || tupLe b a) = true := by
  unfold tupLe
  split_ifs <;> simp_all <;> omega

/-- A successful keyed `mapMOpt` run keeps the elements in order and
pairs each with its computed key. -/
theorem mapMOpt_key_map (key : Candidate → Option (Int × Int × Int)) :
    ∀ (cs : List Candidate) (keyed : List ((Int × Int × Int) × Candidate)),
      mapMOpt (fun c => (key c).map (fun k => (k, c))) cs = some keyed →
      keyed.map Prod.snd = cs ∧ ∀ p ∈ keyed, key p.2 = some p.1 := by
  intro cs
  induction cs with
  | nil =>
      intro keyed h
      simp [mapMOpt] at h
      subst h
      simp
  | cons c cs ih =>
      intro keyed h
      cases hk : key c with
      | none => simp [mapMOpt, hk] at h
      | some k =>
          cases hrec : mapMOpt (fun c => (key c).map (fun k => (k, c))) cs with
          | none => simp [mapMOpt, hk, hrec] at h
          | some tail =>
              simp [mapMOpt, hk, hrec] at h
              subst h
              obtain ⟨ih1, ih2⟩ := ih tail hrec
              refine ⟨by simp [ih1], ?_⟩
              intro p hp
              rcases List.mem_cons.1 hp with hp | hp
              · subst hp; exact hk
              · exact ih2 p hp

/-- Inversion of the sort-key computation: a computed key records the
candidate's max round, its non-null total in that round, and the id. -/
theorem candidate_sort_key_inv (r : RCVResults)
    (mrs : List (Int × CandidateRound)) (c : Candidate) (k : Int × Int × Int)
    (h : r.candidate_sort_key mrs c = some k) :
    ∃ (mr : CandidateRound) (t : Int),
      assocGet mrs c.id = some mr ∧
      r.get_candidate_total c mr.round_num = some (some t) ∧
      k = (-(mr.round_num : Int), -t, c.id) := by
  unfold RCVResults.candidate_sort_key at h
  cases hmr : assocGet mrs c.id with
  | none => rw [hmr] at h; exact Option.noConfusion h
  | some mr =>
      rw [hmr] at h
      simp only [Option.bind_eq_bind, Option.some_bind] at h
      cases htot : r.get_candidate_total c mr.round_num with
      | none => rw [htot] at h; exact Option.noConfusion h
      | some tot =>
          rw [htot] at h
          simp only [Option.some_bind] at h
          cases tot with
          | none => simp at h
          | some t =>
              simp at h
              exact ⟨mr, t, rfl, htot, h.symm⟩

/-- The ordering the claim describes on two candidates, given the
max-rounds table: whenever both candidates' max rounds and (non-null)
vote totals in those rounds are defined, the first candidate reached a
higher round, or the same round with more votes, or the same round and
votes with a smaller-or-equal id. -/
def rankedBefore (r : RCVResults) (max_rounds : List (Int × CandidateRound))
    (c1 c2 : Candidate) : Prop :=
  ∀ (mr1 mr2 : CandidateRound) (t1 t2 : Int),
    assocGet max_rounds c1.id = some mr1 →
    assocGet max_rounds c2.id = some mr2 →
    r.get_candidate_total c1 mr1.round_num = some (some t1) →
    r.get_candidate_total c2 mr2.round_num = some (some t2) →
    mr2.round_num < mr1.round_num ∨
      (mr1.round_num = mr2.round_num ∧
        (t2 < t1 ∨ (t1 = t2 ∧ c1.id ≤ c2.id)))

/-- C8: the computed candidate ordering is a permutation of the
candidates, pairwise sorted by highest reached round number descending,
then by vote total in that round descending, then by candidate id
ascending; the max-rounds table it sorts by is `compute_max_rounds`,
whose entries come from `find_max_round`, which excludes the
after-eliminated placeholder round. -/
theorem compute_order_info_sorted (r : RCVResults) (out : List Candidate)
    (mrs : List (Int × CandidateRound))
    (h : r.compute_order_info = some (out, mrs)) :
    r.compute_max_rounds = some mrs ∧
    out.Perm r.candidates ∧
    out.Pairwise (rankedBefore r mrs) := by
  unfold RCVResults.compute_order_info at h
  cases hmr : r.compute_max_rounds with
  | none => rw [hmr] at h; exact Option.noConfusion h
  | some mrs0 =>
      rw [hmr] at h
      simp only [Option.bind_eq_bind, Option.some_bind] at h
      cases hkey : mapMOpt
          (fun c => (r.candidate_sort_key mrs0 c).map (fun k => (k, c)))
          r.candidates with
      | none => rw [hkey] at h; simp at h
      | some keyed =>
          rw [hkey] at h
          simp at h
          obtain ⟨hout, hm⟩ := h
          subst hm
          obtain ⟨hproj, hkeys⟩ :=
            mapMOpt_key_map (r.candidate_sort_key mrs0) r.candidates keyed hkey
          refine ⟨rfl, ?_, ?_⟩
          · rw [← hout, ← hproj]
            exact (List.mergeSort_perm keyed _).map Prod.snd
          · have hsorted :
                (keyed.mergeSort (fun a b => tupLe a.1 b.1)).Pairwise
                  (fun a b => tupLe a.1 b.1 = true) :=
              List.sorted_mergeSort
                (fun a b c hab hbc => tupLe_trans a.1 b.1 c.1 hab hbc)
                (fun a b => tupLe_total a.1 b.1) keyed
            have hmem : ∀ p ∈ keyed.mergeSort (fun a b => tupLe a.1 b.1),
                r.candidate_sort_key mrs0 p.2 = some p.1 := by
              intro p hp
              exact hkeys p ((List.mergeSort_perm keyed _).mem_iff.1 hp)
            rw [← hout]
            rw [List.pairwise_map]
            refine List.Pairwise.imp_of_mem ?_ hsorted
            intro a b ha hb hle
            intro mr1 mr2 t1 t2 hmr1 hmr2 ht1 ht2
            obtain ⟨mra, ta, hmra, hta, hka⟩ :=
              candidate_sort_key_inv r mrs0 a.2 a.1 (hmem a ha)
            obtain ⟨mrb, tb, hmrb, htb, hkb⟩ :=
              candidate_sort_key_inv r mrs0 b.2 b.1 (hmem b hb)
            rw [hmra] at hmr1
            rw [hmrb] at hmr2
            obtain rfl : mra = mr1 := Option.some_injective _ hmr1
            obtain rfl : mrb = mr2 := Option.some_injective _ hmr2
            rw [hta] at ht1
            rw [htb] at ht2
            obtain rfl : ta = t1 := by
              have := Option.some_injective _ ht1
              exact Option.some_injective _ this
            obtain rfl : tb = t2 := by
              have := Option.some_injective _ ht2
              exact Option.some_injective _ this
            rw [hka, hkb] at hle
            unfold tupLe at hle
            split_ifs at hle <;> simp_all <;> omega

/-- The candidate order `compute_order_info` produces on the sample data
(winner first). -/
def sampleOrder : List Candidate := [⟨101, 1⟩, ⟨102, 2⟩, ⟨100, 0⟩, ⟨103, 3⟩]

/-- The max-rounds table `compute_max_rounds` produces on the sample
data. -/
def sampleMRs : List (Int × CandidateRound) :=
  [(100, ⟨2, 650, 50, some 1900, false⟩),
   (101, ⟨3, 1120, 300, some 1850, false⟩),
   (102, ⟨3, 730, 300, some 1850, false⟩),
   (103, ⟨1, 200, 200, some 2000, false⟩)]

/-- The keyed candidate list built by `compute_order_info` on the sample
data, in candidate order. -/
def sampleKeyed : List ((Int × Int × Int) × Candidate) :=
  [((-2, -650, 100), ⟨100, 0⟩), ((-3, -1120, 101), ⟨101, 1⟩),
   ((-3, -730, 102), ⟨102, 2⟩), ((-1, -200, 103), ⟨103, 3⟩)]

/-- Evaluation of `compute_order_info` on the sample data (the merge sort
is evaluated by its equations, which well-founded reduction does not
unfold). -/
theorem compute_order_info_sample_eq :
    sampleRCV.compute_order_info = some (sampleOrder, sampleMRs) := by
  have h1 : sampleRCV.compute_max_rounds = some sampleMRs := by decide
  have h2 : mapMOpt
      (fun c => (sampleRCV.candidate_sort_key sampleMRs c).map
        (fun k => (k, c))) sampleRCV.candidates = some sampleKeyed := by
    decide
  unfold RCVResults.compute_order_info
  rw [h1]
  simp only [Option.bind_eq_bind, Option.some_bind]
  rw [h2]
  simp only [Option.some_bind]
  simp [sampleKeyed, sampleOrder, List.mergeSort, tupLe]

/-- Witness for `compute_order_info_sorted` on the sample data. -/
theorem compute_order_info_sorted_sample :
    sampleRCV.compute_max_rounds = some sampleMRs ∧
    sampleOrder.Perm sampleRCV.candidates ∧
    sampleOrder.Pairwise (rankedBefore sampleRCV sampleMRs) :=
  compute_order_info_sorted sampleRCV sampleOrder sampleMRs
    compute_order_info_sample_eq

end Orr
